import Mathlib

/-
  Verification of the kdcguide content-management backend against its
  specification.  The definitions below are shallow embeddings of the
  TypeScript sources: src/unnamed/part_002 (the dual-backend server with
  the database access shim), src/server.ts and src/unnamed/part_000
  (the SQLite-only variants), and src/api/index.ts (the Postgres-only
  variant).  Statement strings are modelled as lists of characters and
  each route handler as a pure function on an explicit store state.
-/

namespace Kdcguide

abbrev Chars := List Char

/-- Boolean test that `pat` is an initial segment of `s`, on character
lists (models JavaScript's startsWith used for the SELECT detection, and
the anchored match step of a literal-pattern replace). -/
def prefixAt : Chars → Chars → Bool
  | [], _ => true
  | _ :: _, [] => false
  | a :: as, b :: bs => a == b && prefixAt as bs

/-- Boolean substring test (models JavaScript's `String.prototype.includes`,
used by the shim at src/unnamed/part_002 line 74). -/
def containsSub (pat : Chars) : Chars → Bool
  | [] => pat.isEmpty
  | c :: rest => prefixAt pat (c :: rest) || containsSub pat rest

/-- Fuel-indexed worker for the literal global replace; the fuel only
serves to make the recursion structural and is always supplied as the
subject's length, which suffices because every step consumes at least one
character. -/
def replaceAllSubAux (pat repl : Chars) : Nat → Chars → Chars
  | 0, s => s
  | _ + 1, [] => []
  | fuel + 1, c :: rest =>
    if pat ≠ [] ∧ prefixAt pat (c :: rest) = true then
      repl ++ replaceAllSubAux pat repl fuel ((c :: rest).drop pat.length)
    else
      c :: replaceAllSubAux pat repl fuel rest

/-- Literal global replace, scanning left to right without overlap (models
JavaScript's `String.prototype.replace` with a global literal pattern, as
used by the shim at src/unnamed/part_002 lines 81-83). -/
def replaceAllSub (pat repl : Chars) (s : Chars) : Chars :=
  replaceAllSubAux pat repl s.length s

/-- The character of a decimal digit. -/
def decChar (d : Nat) : Char :=
  if d = 0 then '0' else if d = 1 then '1' else if d = 2 then '2'
  else if d = 3 then '3' else if d = 4 then '4' else if d = 5 then '5'
  else if d = 6 then '6' else if d = 7 then '7' else if d = 8 then '8'
  else '9'

/-- Fuel-indexed worker for the decimal conversion; fuel `n + 1` always
suffices since a number has at most `n + 1` digits. -/
def decDigitsAux : Nat → Nat → Chars
  | 0, _ => []
  | fuel + 1, n =>
    if n < 10 then [decChar n]
    else decDigitsAux fuel (n / 10) ++ [decChar (n % 10)]

/-- Decimal digit string of a natural number (models the JavaScript
number-to-string conversion in the template literal at line 79). -/
def decDigits (n : Nat) : Chars := decDigitsAux (n + 1) n

/-- The question-mark to positional-placeholder rewrite of the shim's
Postgres branch (src/unnamed/part_002 lines 78-79): each '?' becomes `$i`
for a counter `i` starting at 1 and incremented per occurrence. -/
def qRewrite : Chars → Nat → Chars
  | [], _ => []
  | c :: rest, i =>
    if c = '?' then '$' :: (decDigits i ++ qRewrite rest (i + 1))
    else c :: qRewrite rest i

/-- Fuel-indexed worker for the `\$\d+` rewrite; again the fuel is only
there to make the recursion structural. -/
def dRewriteAux : Nat → Chars → Chars
  | 0, s => s
  | _ + 1, [] => []
  | fuel + 1, c :: rest =>
    if c = '$' then
      if (rest.takeWhile Char.isDigit).isEmpty then
        c :: dRewriteAux fuel rest
      else
        '?' :: dRewriteAux fuel (rest.dropWhile Char.isDigit)
    else c :: dRewriteAux fuel rest

/-- The shim's SQLite-branch rewrite (src/unnamed/part_002 line 89):
every occurrence of '$' followed by one or more digits (the regex
`\$\d+`, matched greedily) becomes a single '?'. -/
def dRewrite (s : Chars) : Chars := dRewriteAux s.length s

def settingsUpsertPat : Chars := "INSERT OR REPLACE INTO settings".data

def settingsUpsertPg : Chars :=
  "INSERT INTO settings (key, value) VALUES ($1, $2) ON CONFLICT (key) DO UPDATE SET value = EXCLUDED.value".data

def datetimePat : Chars := "DATETIME DEFAULT CURRENT_TIMESTAMP".data

def timestampRepl : Chars := "TIMESTAMP DEFAULT CURRENT_TIMESTAMP".data

def autoincPat : Chars := "AUTOINCREMENT".data

def serialRepl : Chars := "SERIAL".data

def insertOrReplacePat : Chars := "INSERT OR REPLACE".data

def insertRepl : Chars := "INSERT".data

/-- The statement rewriting performed by the Postgres branch of the shim's
query function (src/unnamed/part_002 lines 70-84): a statement containing
"INSERT OR REPLACE INTO settings" is replaced wholesale by the native
ON CONFLICT upsert; otherwise the '?' placeholders are numbered into
`$1, $2, ...` and the three literal dialect rewrites are applied.  The
bind-value list is passed through unchanged (line 71). -/
def pgText (text : Chars) : Chars :=
  if containsSub settingsUpsertPat text then settingsUpsertPg
  else
    let t1 := qRewrite text 1
    let t2 := replaceAllSub datetimePat timestampRepl t1
    let t3 := replaceAllSub autoincPat serialRepl t2
    replaceAllSub insertOrReplacePat insertRepl t3

/-- The statement rewriting performed by the SQLite branch of the shim's
query function (src/unnamed/part_002 line 89). -/
def sqliteText (text : Chars) : Chars := dRewrite text

/-- A statement written in the call sites' common dialect: the fragments
between consecutive '?' placeholders, joined by '?'. -/
def joinQ : List Chars → Chars
  | [] => []
  | [p] => p
  | p :: q :: ps => p ++ '?' :: joinQ (q :: ps)

/-- The same statement in the Postgres dialect: the fragments joined by
positional placeholders `$i, $(i+1), ...`. -/
def joinD : Nat → List Chars → Chars
  | _, [] => []
  | _, [p] => p
  | i, p :: q :: ps => p ++ '$' :: (decDigits i ++ joinD (i + 1) (q :: ps))

theorem qRewrite_append_of_no_q (p : Chars) (rest : Chars) (i : Nat)
    (h : '?' ∉ p) : qRewrite (p ++ rest) i = p ++ qRewrite rest i := by
  induction p generalizing i with
  | nil => rfl
  | cons c cs ih =>
    have hc : c ≠ '?' := fun hc => h (hc ▸ List.mem_cons_self c cs)
    have hcs : '?' ∉ cs := fun hm => h (List.mem_cons_of_mem c hm)
    simp [qRewrite, hc, ih _ hcs]

theorem qRewrite_joinQ (ps : List Chars) :
    ∀ i, (∀ p ∈ ps, '?' ∉ p) → qRewrite (joinQ ps) i = joinD i ps := by
  induction ps with
  | nil => intro i _; rfl
  | cons p tail ih =>
    intro i h
    cases tail with
    | nil =>
      have : '?' ∉ p := h p (List.mem_cons_self p [])
      simpa [joinQ, joinD] using
        (by simpa [qRewrite] using qRewrite_append_of_no_q p [] i this)
    | cons q ps' =>
      have hp : '?' ∉ p := h p (List.mem_cons_self p (q :: ps'))
      have htail : ∀ r ∈ q :: ps', '?' ∉ r := fun r hr =>
        h r (List.mem_cons_of_mem p hr)
      simp only [joinQ, joinD]
      rw [qRewrite_append_of_no_q _ _ _ hp]
      simp [qRewrite, ih (i + 1) htail]

theorem replaceAllSubAux_of_not_contains (pat repl : Chars) :
    ∀ fuel s, containsSub pat s = false → replaceAllSubAux pat repl fuel s = s := by
  intro fuel
  induction fuel with
  | zero => intro s _; rfl
  | succ f ih =>
    intro s h
    cases s with
    | nil => rfl
    | cons c rest =>
      have hsplit : prefixAt pat (c :: rest) = false ∧ containsSub pat rest = false := by
        have := h
        simp [containsSub] at this
        exact this
      rw [replaceAllSubAux, if_neg, ih rest hsplit.2]
      intro hcond
      exact absurd hcond.2 (by simp [hsplit.1])

theorem replaceAllSub_of_not_contains (pat repl : Chars) (s : Chars)
    (h : containsSub pat s = false) : replaceAllSub pat repl s = s :=
  replaceAllSubAux_of_not_contains pat repl s.length s h

theorem decChar_isDigit (d : Nat) : (decChar d).isDigit = true := by
  unfold decChar
  repeat' split
  all_goals decide

theorem decDigitsAux_all_digits :
    ∀ fuel n, ∀ c ∈ decDigitsAux fuel n, c.isDigit = true := by
  intro fuel
  induction fuel with
  | zero => intro n c hc; simp [decDigitsAux] at hc
  | succ f ih =>
    intro n c hc
    rw [decDigitsAux] at hc
    by_cases h10 : n < 10
    · rw [if_pos h10] at hc
      simp only [List.mem_singleton] at hc
      subst hc
      exact decChar_isDigit n
    · rw [if_neg h10] at hc
      rcases List.mem_append.mp hc with h1 | h2
      · exact ih (n / 10) c h1
      · simp only [List.mem_singleton] at h2
        subst h2
        exact decChar_isDigit _

theorem decDigits_all_digits (n : Nat) : ∀ c ∈ decDigits n, c.isDigit = true :=
  decDigitsAux_all_digits (n + 1) n

theorem decDigits_ne_nil (n : Nat) : decDigits n ≠ [] := by
  show decDigitsAux (n + 1) n ≠ []
  rw [decDigitsAux]
  split <;> simp

theorem takeWhile_append_of_all (p : Char → Bool) (a b : Chars)
    (h : ∀ c ∈ a, p c = true) : (a ++ b).takeWhile p = a ++ b.takeWhile p := by
  induction a with
  | nil => simp
  | cons x xs ih =>
    have hx : p x = true := h x (List.mem_cons_self _ _)
    simp [List.takeWhile_cons, hx, ih (fun c hc => h c (List.mem_cons_of_mem _ hc))]

theorem dropWhile_append_of_all (p : Char → Bool) (a b : Chars)
    (h : ∀ c ∈ a, p c = true) : (a ++ b).dropWhile p = b.dropWhile p := by
  induction a with
  | nil => simp
  | cons x xs ih =>
    have hx : p x = true := h x (List.mem_cons_self _ _)
    simp [List.dropWhile_cons, hx, ih (fun c hc => h c (List.mem_cons_of_mem _ hc))]

theorem takeWhile_eq_nil_of_head (p : Char → Bool) (b : Chars)
    (h : ∀ c, b.head? = some c → p c = false) : b.takeWhile p = [] := by
  cases b with
  | nil => rfl
  | cons x xs => simp [List.takeWhile_cons, h x rfl]

theorem dropWhile_eq_self_of_head (p : Char → Bool) (b : Chars)
    (h : ∀ c, b.head? = some c → p c = false) : b.dropWhile p = b := by
  cases b with
  | nil => rfl
  | cons x xs => simp [List.dropWhile_cons, h x rfl]

theorem joinD_head_not_digit (i : Nat) (ps : List Chars)
    (h : ∀ p ∈ ps, ∀ c, p.head? = some c → c.isDigit = false) :
    ∀ c, (joinD i ps).head? = some c → c.isDigit = false := by
  cases ps with
  | nil => intro c hc; simp [joinD] at hc
  | cons p tail =>
    cases tail with
    | nil => exact h p (List.mem_cons_self _ _)
    | cons q ps' =>
      intro c hc
      cases p with
      | nil =>
        simp [joinD] at hc
        subst hc
        decide
      | cons x xs =>
        simp [joinD] at hc
        exact h (x :: xs) (List.mem_cons_self _ _) c (by simp [hc])

theorem dRewriteAux_congr : ∀ f1 : Nat, ∀ s : Chars, ∀ f2 : Nat,
    s.length ≤ f1 → s.length ≤ f2 → dRewriteAux f1 s = dRewriteAux f2 s := by
  intro f1
  induction f1 with
  | zero =>
    intro s f2 h1 _
    have hs : s = [] := List.eq_nil_of_length_eq_zero (Nat.le_zero.mp h1)
    subst hs
    cases f2 <;> rfl
  | succ f ih =>
    intro s f2 h1 h2
    cases s with
    | nil => cases f2 <;> rfl
    | cons c rest =>
      cases f2 with
      | zero => simp at h2
      | succ f2' =>
        have hr1 : rest.length ≤ f := by simp at h1; omega
        have hr2 : rest.length ≤ f2' := by simp at h2; omega
        have hdrop : (rest.dropWhile Char.isDigit).length ≤ rest.length :=
          (List.dropWhile_sublist _).length_le
        rw [dRewriteAux, dRewriteAux]
        by_cases hc : c = '$'
        · by_cases ht : (rest.takeWhile Char.isDigit).isEmpty = true
          · rw [if_pos hc, if_pos hc, if_pos ht, if_pos ht, ih rest f2' hr1 hr2]
          · rw [if_pos hc, if_pos hc, if_neg ht, if_neg ht,
                ih _ f2' (le_trans hdrop hr1) (le_trans hdrop hr2)]
        · rw [if_neg hc, if_neg hc, ih rest f2' hr1 hr2]

theorem dRewrite_nil : dRewrite [] = [] := rfl

theorem dRewrite_cons_not_dollar (c : Char) (rest : Chars) (hc : c ≠ '$') :
    dRewrite (c :: rest) = c :: dRewrite rest := by
  show dRewriteAux (rest.length + 1) (c :: rest) = c :: dRewriteAux rest.length rest
  rw [dRewriteAux, if_neg hc]

theorem dRewrite_cons_dollar (rest : Chars)
    (h : (rest.takeWhile Char.isDigit).isEmpty = false) :
    dRewrite ('$' :: rest) = '?' :: dRewrite (rest.dropWhile Char.isDigit) := by
  show dRewriteAux (rest.length + 1) ('$' :: rest) = _
  rw [dRewriteAux, if_pos rfl, if_neg (by simp [h])]
  exact congrArg (fun t => '?' :: t)
    (dRewriteAux_congr rest.length _ _ ((List.dropWhile_sublist _).length_le) le_rfl)

theorem dRewrite_append_of_no_dollar (p rest : Chars) (h : '$' ∉ p) :
    dRewrite (p ++ rest) = p ++ dRewrite rest := by
  induction p with
  | nil => simp
  | cons c cs ih =>
    have hc : c ≠ '$' := fun hc => h (hc ▸ List.mem_cons_self c cs)
    have hcs : '$' ∉ cs := fun hm => h (List.mem_cons_of_mem c hm)
    simp only [List.cons_append]
    rw [dRewrite_cons_not_dollar c _ hc, ih hcs]

theorem dRewrite_joinD (ps : List Chars) :
    ∀ i, (∀ p ∈ ps, '$' ∉ p) →
      (∀ p ∈ ps, ∀ c, p.head? = some c → c.isDigit = false) →
      dRewrite (joinD i ps) = joinQ ps := by
  induction ps with
  | nil => intro i _ _; rfl
  | cons p tail ih =>
    intro i hd hh
    cases tail with
    | nil =>
      have hp : '$' ∉ p := hd p (List.mem_cons_self _ _)
      simpa [joinD, joinQ, dRewrite_nil] using dRewrite_append_of_no_dollar p [] hp
    | cons q ps' =>
      have hp : '$' ∉ p := hd p (List.mem_cons_self _ _)
      have hdTail : ∀ r ∈ q :: ps', '$' ∉ r := fun r hr => hd r (List.mem_cons_of_mem _ hr)
      have hhTail : ∀ r ∈ q :: ps', ∀ c, r.head? = some c → c.isDigit = false :=
        fun r hr => hh r (List.mem_cons_of_mem _ hr)
      have htake : ((decDigits i ++ joinD (i + 1) (q :: ps')).takeWhile Char.isDigit) = decDigits i := by
        rw [takeWhile_append_of_all _ _ _ (decDigits_all_digits i),
            takeWhile_eq_nil_of_head _ _ (joinD_head_not_digit (i + 1) (q :: ps') hhTail),
            List.append_nil]
      have hdrop : ((decDigits i ++ joinD (i + 1) (q :: ps')).dropWhile Char.isDigit) = joinD (i + 1) (q :: ps') := by
        rw [dropWhile_append_of_all _ _ _ (decDigits_all_digits i),
            dropWhile_eq_self_of_head _ _ (joinD_head_not_digit (i + 1) (q :: ps') hhTail)]
      have hne : ((decDigits i ++ joinD (i + 1) (q :: ps')).takeWhile Char.isDigit).isEmpty = false := by
        rw [htake]
        cases hdd : decDigits i with
        | nil => exact absurd hdd (decDigits_ne_nil i)
        | cons a l => rfl
      simp only [joinD, joinQ]
      rw [dRewrite_append_of_no_dollar _ _ hp]
      congr 1
      rw [dRewrite_cons_dollar _ hne, hdrop, ih (i + 1) hdTail hhTail]

/-- C1: the shim's query function translates placeholders between the two
backends' dialects.  (a) A statement containing "INSERT OR REPLACE INTO
settings" is rewritten, when the Postgres backend is active, to the native
INSERT ... ON CONFLICT (key) DO UPDATE upsert form.  (b) Any other
statement, written as fragments joined by '?' placeholders, has each '?'
rewritten to `$1, $2, ...` in left-to-right order (so the k-th placeholder
becomes `$k`, preserving the order of the unchanged bind-value list), with
the literal DDL rewrites leaving the statement untouched when their
patterns do not occur.  (c) When the SQLite backend is active, positional
`$n` placeholders are rewritten back to '?', so the same call site works
against either backend. -/
theorem c1_placeholder_translation :
    (∀ text : Chars, containsSub settingsUpsertPat text = true →
      pgText text = settingsUpsertPg)
    ∧ (∀ parts : List Chars, (∀ p ∈ parts, '?' ∉ p) →
        containsSub settingsUpsertPat (joinQ parts) = false →
        containsSub datetimePat (joinD 1 parts) = false →
        containsSub autoincPat (joinD 1 parts) = false →
        containsSub insertOrReplacePat (joinD 1 parts) = false →
        pgText (joinQ parts) = joinD 1 parts)
    ∧ (∀ parts : List Chars, (∀ p ∈ parts, '$' ∉ p) →
        (∀ p ∈ parts, ∀ c, p.head? = some c → c.isDigit = false) →
        sqliteText (joinD 1 parts) = joinQ parts) := by
  refine ⟨fun text h => ?_, fun parts hq h0 h1 h2 h3 => ?_, fun parts hd hh => ?_⟩
  · rw [pgText, if_pos h]
  · rw [pgText, if_neg (by simp [h0])]
    rw [qRewrite_joinQ parts 1 hq]
    show replaceAllSub insertOrReplacePat insertRepl
      (replaceAllSub autoincPat serialRepl
        (replaceAllSub datetimePat timestampRepl (joinD 1 parts))) = joinD 1 parts
    rw [replaceAllSub_of_not_contains _ _ _ h1,
        replaceAllSub_of_not_contains _ _ _ h2,
        replaceAllSub_of_not_contains _ _ _ h3]
  · exact dRewrite_joinD parts 1 hd hh

/-- Witness for C1 at concrete statements of the application: the settings
upsert, the posts insert (as sent by POST /api/posts), and the faqs lookup
in the Postgres dialect (as sent by the pg variant). -/
theorem c1_placeholder_translation_witness :
    pgText "INSERT OR REPLACE INTO settings (key, value) VALUES (?, ?)".data = settingsUpsertPg
    ∧ pgText (joinQ ["INSERT INTO posts (title, content, category, icon) VALUES (".data,
        ", ".data, ", ".data, ", ".data, ")".data]) =
      joinD 1 ["INSERT INTO posts (title, content, category, icon) VALUES (".data,
        ", ".data, ", ".data, ", ".data, ")".data]
    ∧ sqliteText (joinD 1 ["SELECT * FROM faqs WHERE id = ".data, "".data]) =
      joinQ ["SELECT * FROM faqs WHERE id = ".data, "".data] := by
  refine ⟨c1_placeholder_translation.1 _ (by decide),
    c1_placeholder_translation.2.1 _ (by decide) (by decide) (by decide) (by decide) (by decide),
    c1_placeholder_translation.2.2 _ (by decide) (by decide)⟩

/-- First-match lookup in the key/value rows of the settings table
(models SELECT value FROM settings WHERE key = ?; the primary key keeps
keys unique in reachable stores). -/
def lookupS : List (String × String) → String → Option String
  | [], _ => none
  | p :: rest, k => if p.1 = k then some p.2 else lookupS rest k

def hasKey : List (String × String) → String → Bool
  | [], _ => false
  | p :: rest, k => if p.1 = k then true else hasKey rest k

/-- INSERT OR REPLACE INTO settings (key, value) VALUES (?, ?) — replace
the value of an existing key, or add a fresh row. -/
def upsertSetting (l : List (String × String)) (k v : String) : List (String × String) :=
  if hasKey l k then l.map (fun p => if p.1 = k then (k, v) else p)
  else l ++ [(k, v)]

theorem lookup_map_upsert (l : List (String × String)) (k v : String) :
    lookupS (l.map (fun p => if p.1 = k then (k, v) else p)) k =
      if hasKey l k then some v else none := by
  induction l with
  | nil => rfl
  | cons a t ih =>
    by_cases ha : a.1 = k <;> simp [lookupS, hasKey, ha, ih]

theorem lookup_append_self (l : List (String × String)) (k v : String)
    (h : hasKey l k = false) : lookupS (l ++ [(k, v)]) k = some v := by
  induction l with
  | nil => simp [lookupS]
  | cons a t ih =>
    rw [hasKey] at h
    by_cases ha : a.1 = k
    · rw [if_pos ha] at h
      exact absurd h (by simp)
    · rw [if_neg ha] at h
      simp [lookupS, ha, ih h]

theorem lookupUpsertSelf (l : List (String × String)) (k v : String) :
    lookupS (upsertSetting l k v) k = some v := by
  unfold upsertSetting
  by_cases h : hasKey l k
  · rw [if_pos h, lookup_map_upsert, if_pos h]
  · rw [if_neg h, lookup_append_self l k v (by simpa using h)]

theorem lookup_map_other (l : List (String × String)) (k v k' : String) (h : k' ≠ k) :
    lookupS (l.map (fun p => if p.1 = k then (k, v) else p)) k' = lookupS l k' := by
  induction l with
  | nil => rfl
  | cons a t ih =>
    by_cases ha : a.1 = k
    · have hk : ¬ (k = k') := fun hk => h hk.symm
      have ha' : ¬ (a.1 = k') := by rw [ha]; exact hk
      simp [lookupS, ha, hk, ha', ih]
    · by_cases ha' : a.1 = k'
      · simp [lookupS, ha, ha', h]
      · simp [lookupS, ha, ha', ih]

theorem lookup_append_other (l : List (String × String)) (k v k' : String) (h : k' ≠ k) :
    lookupS (l ++ [(k, v)]) k' = lookupS l k' := by
  induction l with
  | nil =>
    have hk : ¬ (k = k') := fun hk => h hk.symm
    simp [lookupS, hk]
  | cons a t ih =>
    by_cases ha : a.1 = k'
    · simp [lookupS, ha]
    · simp [lookupS, ha, ih]

theorem lookupUpsertOther (l : List (String × String)) (k v k' : String) (h : k' ≠ k) :
    lookupS (upsertSetting l k v) k' = lookupS l k' := by
  unfold upsertSetting
  split
  · exact lookup_map_other l k v k' h
  · exact lookup_append_other l k v k' h

def trimChars (s : Chars) : Chars :=
  ((s.dropWhile Char.isWhitespace).reverse.dropWhile Char.isWhitespace).reverse

def upperChars (s : Chars) : Chars := s.map Char.toUpper

/-- The SELECT detection of the shim's SQLite branch (part_002 line 91):
`sqliteText.trim().toUpperCase().startsWith("SELECT")`. -/
def isSelectStmt (text : Chars) : Bool :=
  prefixAt "SELECT".data (upperChars (trimChars text))

/-- The result object of better-sqlite3's `stmt.run` (external library):
number of affected rows and the rowid of the last insert. -/
structure RunInfo where
  changes : Nat
  lastInsertRowid : Nat
deriving Repr, DecidableEq

/-- A row of a result set: either a data row of the underlying table or
the synthesized id-only object built by the shim for writes. -/
inductive Row (α : Type) where
  | entity (a : α)
  | idOnly (id : Nat)
deriving Repr, DecidableEq

/-- The result shape consumed by the route handlers: a rows array and an
optional affected-row count. -/
structure QueryResult (α : Type) where
  rows : List (Row α)
  rowCount : Option Nat
deriving Repr, DecidableEq

/-- The SQLite branch of the shim's query function (part_002 lines 88-96),
given the engine's outputs: for a SELECT, the statement's rows and no
count; otherwise the run info normalized to rowCount := changes and
rows := a single id-only object holding lastInsertRowid. -/
def sqliteQuery (α : Type) (text : Chars) (allRows : List α) (run : RunInfo) :
    QueryResult α :=
  if isSelectStmt (sqliteText text) then
    { rows := allRows.map Row.entity, rowCount := none }
  else
    { rows := [Row.idOnly run.lastInsertRowid], rowCount := some run.changes }

/-- The Postgres branch of the shim's query function (part_002 line 86)
returns the node-postgres result unchanged.  Modelled from the
node-postgres contract (an external library): the rows array holds the
statement's result set — the selected rows for a SELECT, the returned
rows when a RETURNING clause is present, and empty otherwise — while
rowCount counts the affected or returned rows. -/
def pgQuery (α : Type) (text : Chars) (selRows : List α) (affected : Nat) (newId : Nat) :
    QueryResult α :=
  let t := pgText text
  if isSelectStmt t then
    { rows := selRows.map Row.entity, rowCount := some selRows.length }
  else if containsSub "RETURNING".data t then
    { rows := [Row.idOnly newId], rowCount := some affected }
  else
    { rows := [], rowCount := some affected }

/-- C2 is a code bug, witnessed here by evaluating both branches of the
shim at the statements the routes send.  The SQLite branch does normalize
every call: a SELECT yields the ordered row list, a write yields the
affected-row count, and an insert yields the new row's id as rows[0].id.
But the shim's Postgres branch forwards the backend-native result and the
insert it sends for POST /api/posts carries no RETURNING clause, so its
rows array is empty: `result.rows[0].id`, which POST /api/posts (line 246)
and POST /api/faqs (line 317) read, does not exist there. -/
theorem c2_insert_id_lost_on_postgres :
    (sqliteQuery Unit "SELECT * FROM posts ORDER BY updated_at DESC".data [(), ()] ⟨0, 0⟩).rows
      = [Row.entity (), Row.entity ()]
    ∧ (sqliteQuery Unit "DELETE FROM posts WHERE id = ?".data [] ⟨1, 9⟩).rowCount = some 1
    ∧ (sqliteQuery Unit "INSERT INTO posts (title, content, category, icon) VALUES (?, ?, ?, ?)".data [] ⟨1, 7⟩).rows.head?
      = some (Row.idOnly 7)
    ∧ (pgQuery Unit "INSERT INTO posts (title, content, category, icon) VALUES (?, ?, ?, ?)".data [] 1 7).rows.head?
      = none := by
  refine ⟨by decide, by decide, by decide, by decide⟩

/-- A row of the posts table (schema at part_002 line 135): category and
icon are nullable; updated_at is an abstract timestamp. -/
structure Post where
  id : Nat
  title : String
  content : String
  category : Option String
  icon : Option String
  updated_at : Nat
deriving Repr, DecidableEq

/-- A row of the categories table: name is UNIQUE, display_order drives
the presentation order. -/
structure Category where
  id : Nat
  name : String
  display_order : Int
deriving Repr, DecidableEq

/-- A row of the faqs table. -/
structure Faq where
  id : Nat
  question : String
  answer : String
  updated_at : Nat
deriving Repr, DecidableEq

/-- A row of the training_process table. -/
structure TrainingStep where
  id : Nat
  title : String
  description : String
  step_order : Int
deriving Repr, DecidableEq

/-- The relational store: the five tables, plus the auto-increment
sequence for the categories table (the only one whose insertions the
claims below need to track). -/
structure Store where
  settings : List (String × String)
  posts : List Post
  categories : List Category
  faqs : List Faq
  training_process : List TrainingStep
  nextCategoryId : Nat
deriving Repr, DecidableEq

def emptyStore : Store :=
  { settings := [], posts := [], categories := [], faqs := [],
    training_process := [], nextCategoryId := 1 }

def hasCategoryName : List Category → String → Bool
  | [], _ => false
  | c :: rest, n => if c.name = n then true else hasCategoryName rest n

/-- INSERT INTO categories (name, display_order) VALUES (?, ?): fails with
SQLite's UNIQUE-constraint error when the name is already present
(schema: name TEXT NOT NULL UNIQUE), otherwise appends the new row under
the next sequence id. -/
def insertCategory (st : Store) (name : String) (ord : Int) : Except String Store :=
  if hasCategoryName st.categories name then
    Except.error "UNIQUE constraint failed: categories.name"
  else
    Except.ok { st with
      categories := st.categories ++ [{ id := st.nextCategoryId, name := name, display_order := ord }],
      nextCategoryId := st.nextCategoryId + 1 }

/-- The insert loop of POST /api/categories/bulk in the shim variant
(part_002 lines 296-298): one awaited query per element and no
transaction, so a failing insert aborts the loop and leaves the earlier
inserts in place.  Returns the resulting store and whether every insert
succeeded. -/
def insertLoop (st : Store) : List (String × Int) → Store × Bool
  | [] => (st, true)
  | c :: rest =>
    match insertCategory st c.1 c.2 with
    | Except.ok st' => insertLoop st' rest
    | Except.error _ => (st, false)

/-- POST /api/categories/bulk in the shim variant (part_002 lines
294-300): DELETE FROM categories, then the untransacted insert loop. -/
def bulkCategoriesShim (st : Store) (cats : List (String × Int)) : Store × Bool :=
  insertLoop { st with categories := [] } cats

/-- The transacted insert loop of src/server.ts lines 247-253: all
inserts succeed, or the transaction rolls every insert back. -/
def insertAllCategories (st : Store) : List (String × Int) → Except String Store
  | [] => Except.ok st
  | c :: rest =>
    match insertCategory st c.1 c.2 with
    | Except.ok st' => insertAllCategories st' rest
    | Except.error e => Except.error e

/-- POST /api/categories/bulk in src/server.ts lines 242-259: the DELETE
runs before — outside — the transaction, which wraps only the inserts; a
failing insert therefore rolls the inserts back but not the delete. -/
def bulkCategoriesServer (st : Store) (cats : List (String × Int)) : Store × Bool :=
  let cleared := { st with categories := [] }
  match insertAllCategories cleared cats with
  | Except.ok st' => (st', true)
  | Except.error _ => (cleared, false)

/-- C3 is a code bug, witnessed by evaluating both bulk-replace variants
on a store holding the single category "A" and a new collection whose
second element repeats the name "B", so that its insert violates the
UNIQUE(name) constraint.  The shim variant is left with just ["B"] —
neither the prior collection ["A"] nor the new one — and the server.ts
variant is left empty, because its DELETE ran outside the transaction.
The claim (and spec section 4.2) require the prior state on any
failure. -/
theorem c3_bulk_replace_not_atomic :
    (bulkCategoriesShim
        { settings := [], posts := [], categories := [{ id := 1, name := "A", display_order := 1 }],
          faqs := [], training_process := [], nextCategoryId := 2 }
        [("B", 1), ("B", 2)]).1.categories.map Category.name = ["B"]
    ∧ (bulkCategoriesShim
        { settings := [], posts := [], categories := [{ id := 1, name := "A", display_order := 1 }],
          faqs := [], training_process := [], nextCategoryId := 2 }
        [("B", 1), ("B", 2)]).2 = false
    ∧ (bulkCategoriesServer
        { settings := [], posts := [], categories := [{ id := 1, name := "A", display_order := 1 }],
          faqs := [], training_process := [], nextCategoryId := 2 }
        [("B", 1), ("B", 2)]).1.categories = []
    ∧ (bulkCategoriesServer
        { settings := [], posts := [], categories := [{ id := 1, name := "A", display_order := 1 }],
          faqs := [], training_process := [], nextCategoryId := 2 }
        [("B", 1), ("B", 2)]).2 = false := by
  refine ⟨by decide, by decide, by decide, by decide⟩

/-- The server-side session state: the only authority flag is isAdmin,
held in the session store and never taken from the client. -/
structure Session where
  isAdmin : Bool
deriving Repr, DecidableEq

/-- The expected credential computed by POST /api/admin/login in the shim
variant (part_002 line 328): `setting?.value || "comento0804"`.  The
JavaScript or-fallback kicks in when the row is absent and also when the
stored value is the empty string (which is falsy). -/
def expectedPassword (settings : List (String × String)) : String :=
  match lookupS settings "adminPassword" with
  | some v => if v = "" then "comento0804" else v
  | none => "comento0804"

/-- A session row of the server-side session store: the authority flag
and the absolute instant at which the session expires, set when the
session is saved from the cookie's 24-hour maxAge (part_002 line 208). -/
structure StoredSession where
  isAdmin : Bool
  expire : Nat
deriving Repr, DecidableEq

/-- The session time-to-live: maxAge 24 * 60 * 60 * 1000 milliseconds
(part_002 line 208). -/
def sessionTTL : Nat := 24 * 60 * 60 * 1000

/-- Modelled from the express-session middleware and its backing session
stores (external libraries; spec section 3's Session row): a request at
instant `now` sees the stored session while it has not expired; an
absent or expired entry yields a fresh anonymous session (both backing
stores prune expired rows, and the cookie expires with them). -/
def loadSession (entry : Option StoredSession) (now : Nat) : Session :=
  match entry with
  | some ss => if now < ss.expire then { isAdmin := ss.isAdmin } else { isAdmin := false }
  | none => { isAdmin := false }

/-- POST /api/admin/login at instant `now` (part_002 lines 325-334): on a
match, mark the session admin and save it — persisting the entry with a
fresh 24-hour expiry before the 200 response is sent (lines 329-330);
otherwise answer 401 and leave the stored entry untouched. -/
def adminLoginAt (settings : List (String × String)) (entry : Option StoredSession)
    (now : Nat) (password : String) : Option StoredSession × Nat :=
  if password = expectedPassword settings then
    (some { isAdmin := true, expire := now + sessionTTL }, 200)
  else (entry, 401)

/-- GET /api/admin/check (part_002 lines 336-343). -/
def adminCheck (sess : Session) : Nat :=
  if sess.isAdmin then 200 else 401

/-- GET /api/admin/check at instant `now`, as the middleware serves it
from the session store. -/
def adminCheckAt (entry : Option StoredSession) (now : Nat) : Nat :=
  adminCheck (loadSession entry now)

/-- POST /api/admin/logout (part_002 lines 345-350): the stored session
is destroyed and the cookie cleared. -/
def adminLogoutAt (_entry : Option StoredSession) : Option StoredSession × Nat :=
  (none, 200)

/-- The amended credential rule, following the amended claim's words: the
stored adminPassword value when the row is present with a non-empty
value, and the fixed default when the row is absent or holds the empty
string. -/
def amendedExpected (settings : List (String × String)) : String :=
  match lookupS settings "adminPassword" with
  | some v => if v = "" then "comento0804" else v
  | none => "comento0804"

/-- Counterexample to C4 as stated: with the stored adminPassword value
being the empty string, a login whose submitted password equals that
stored value is rejected with 401 and the session stays anonymous (no
entry is saved), because the or-fallback of part_002 line 328 replaces
the empty stored value by the default. -/
theorem c4_counterexample :
    lookupS [("adminPassword", "")] "adminPassword" = some ""
    ∧ adminLoginAt [("adminPassword", "")] none 0 "" = (none, 401) := by
  refine ⟨by decide, by decide⟩

theorem expectedPassword_eq_amended (settings : List (String × String)) :
    expectedPassword settings = amendedExpected settings := rfl

/-- C4 as amended: a login succeeds — answering 200 after persisting an
authenticated session entry that expires a TTL after `now` — exactly
when the submitted password equals the stored adminPassword when that
value is non-empty, or the fixed default "comento0804" when the row is
absent or its value is empty; any other submitted value is answered 401
with the stored entry left untouched.  After a successful login, check
answers success at every instant before the entry's expiry and 401 from
expiry on; after logout — the entry destroyed — and for a session that
was never authenticated, check answers 401.  So check returns success
until logout or expiry. -/
theorem c4_login_session_characterization (settings : List (String × String))
    (entry : Option StoredSession) (now t : Nat) (pw : String) :
    adminLoginAt settings entry now pw
      = (if pw = amendedExpected settings then
           some { isAdmin := true, expire := now + sessionTTL } else entry,
         if pw = amendedExpected settings then 200 else 401)
    ∧ adminCheckAt (some { isAdmin := true, expire := now + sessionTTL }) t
      = (if t < now + sessionTTL then 200 else 401)
    ∧ adminCheckAt (adminLogoutAt entry).1 t = 401
    ∧ adminCheckAt none t = 401 := by
  refine ⟨?_, ?_, ?_, ?_⟩
  · by_cases h : pw = amendedExpected settings <;>
      simp [adminLoginAt, expectedPassword_eq_amended, h]
  · by_cases ht : t < now + sessionTTL <;>
      simp [adminCheckAt, loadSession, adminCheck, ht]
  · simp [adminLogoutAt, adminCheckAt, loadSession, adminCheck]
  · simp [adminCheckAt, loadSession, adminCheck]

def findPostById : List Post → Nat → Option Post
  | [], _ => none
  | p :: rest, i => if p.id = i then some p else findPostById rest i

def findFaqById : List Faq → Nat → Option Faq
  | [], _ => none
  | f :: rest, i => if f.id = i then some f else findFaqById rest i

/-- GET /api/posts/:id in src/server.ts lines 168-171: the row found by
SELECT * FROM posts WHERE id = ? — possibly undefined — is sent as the
JSON body with status 200; there is no 404 branch. -/
def getPostByIdServer (st : Store) (id : Nat) : Nat × Option Post :=
  (200, findPostById st.posts id)

/-- GET /api/posts/:id in the shim variant (part_002 lines 236-241): a
missing row is answered with status 404 and an error body. -/
def getPostByIdShim (st : Store) (id : Nat) : Nat × Option Post :=
  match findPostById st.posts id with
  | some p => (200, some p)
  | none => (404, none)

/-- GET /api/faqs/:id in src/unnamed/part_000 lines 266-269: like the
server.ts posts route, the possibly-undefined row is sent with status
200 and no 404 branch. -/
def getFaqByIdLegacy (st : Store) (id : Nat) : Nat × Option Faq :=
  (200, findFaqById st.faqs id)

/-- GET /api/faqs/:id in the shim variant (part_002 lines 307-312). -/
def getFaqByIdShim (st : Store) (id : Nat) : Nat × Option Faq :=
  match findFaqById st.faqs id with
  | some f => (200, some f)
  | none => (404, none)

/-- Counterexample to C5 as stated: in the src/server.ts variant (cited by
the claim), GET /api/posts/:id on an id matching no row answers status
200 with an empty (undefined) body, not a 404 not-found response. -/
theorem c5_counterexample :
    (getPostByIdServer emptyStore 1).1 = 200
    ∧ (getPostByIdServer emptyStore 1).1 ≠ 404
    ∧ (getPostByIdServer emptyStore 1).2 = none := by
  refine ⟨by decide, by decide, by decide⟩

/-- C5 as amended: on an id matching no stored row, the shim variant's
GET /api/posts/:id and GET /api/faqs/:id answer 404 with no entity body,
while the src/server.ts posts route and the src/unnamed/part_000 faqs
route answer 200 with an empty (undefined) body. -/
theorem c5_get_by_id_not_found (st : Store) (id : Nat)
    (hp : ∀ p ∈ st.posts, p.id ≠ id) (hf : ∀ f ∈ st.faqs, f.id ≠ id) :
    getPostByIdShim st id = (404, none)
    ∧ getFaqByIdShim st id = (404, none)
    ∧ getPostByIdServer st id = (200, none)
    ∧ getFaqByIdLegacy st id = (200, none) := by
  have hpn : findPostById st.posts id = none := by
    have : ∀ l : List Post, (∀ p ∈ l, p.id ≠ id) → findPostById l id = none := by
      intro l
      induction l with
      | nil => intro _; rfl
      | cons p rest ih =>
        intro hl
        rw [findPostById, if_neg (hl p (List.mem_cons_self _ _))]
        exact ih (fun q hq => hl q (List.mem_cons_of_mem _ hq))
    exact this st.posts hp
  have hfn : findFaqById st.faqs id = none := by
    have : ∀ l : List Faq, (∀ f ∈ l, f.id ≠ id) → findFaqById l id = none := by
      intro l
      induction l with
      | nil => intro _; rfl
      | cons f rest ih =>
        intro hl
        rw [findFaqById, if_neg (hl f (List.mem_cons_self _ _))]
        exact ih (fun g hg => hl g (List.mem_cons_of_mem _ hg))
    exact this st.faqs hf
  exact ⟨by rw [getPostByIdShim, hpn], by rw [getFaqByIdShim, hfn],
    by rw [getPostByIdServer, hpn], by rw [getFaqByIdLegacy, hfn]⟩

/-- Witness for the amended C5 on the empty store at id 7. -/
theorem c5_get_by_id_not_found_witness :
    getPostByIdShim emptyStore 7 = (404, none)
    ∧ getFaqByIdShim emptyStore 7 = (404, none)
    ∧ getPostByIdServer emptyStore 7 = (200, none)
    ∧ getFaqByIdLegacy emptyStore 7 = (200, none) :=
  c5_get_by_id_not_found emptyStore 7 (by simp [emptyStore]) (by simp [emptyStore])

/-- The request body of POST /api/settings: each field is absent or a
string; contactLinks carries the serialized JSON text produced by
JSON.stringify on the provided list (an external library call). -/
structure SettingsBody where
  siteName : Option String
  primaryColor : Option String
  adminPassword : Option String
  logoUrl : Option String
  contactInfo : Option String
  contactLinks : Option String
deriving Repr, DecidableEq

/-- One conditional upsert step `if (x) upsert(key, x)` used by POST
/api/settings for the four plain string settings: an absent or empty
(falsy) value is skipped. -/
def applyGuard (s : List (String × String)) (key : String) (o : Option String) :
    List (String × String) :=
  match o with
  | some v => if v = "" then s else upsertSetting s key v
  | none => s

/-- One conditional upsert step `if (x !== undefined) upsert(key, x)` used
by POST /api/settings for contactInfo and contactLinks: any provided
value, even the empty string, is upserted. -/
def applyDefined (s : List (String × String)) (key : String) (o : Option String) :
    List (String × String) :=
  match o with
  | some v => upsertSetting s key v
  | none => s

/-- POST /api/settings (part_002 lines 265-277; the same sequence of
conditional upserts appears in src/server.ts lines 208-218 and the other
variants). -/
def postSettings (st : Store) (b : SettingsBody) : Store :=
  let s1 := applyGuard st.settings "siteName" b.siteName
  let s2 := applyGuard s1 "primaryColor" b.primaryColor
  let s3 := applyGuard s2 "adminPassword" b.adminPassword
  let s4 := applyGuard s3 "logoUrl" b.logoUrl
  let s5 := applyDefined s4 "contactInfo" b.contactInfo
  let s6 := applyDefined s5 "contactLinks" b.contactLinks
  { st with settings := s6 }

/-- The stored value a guarded upsert leaves behind, in the amended
claim's words: the provided value when non-empty, the prior value
otherwise. -/
def updGuard (old : Option String) : Option String → Option String
  | some v => if v = "" then old else some v
  | none => old

/-- The stored value an unguarded (defined-check) upsert leaves behind:
the provided value whenever present, even empty. -/
def updDefined (old : Option String) : Option String → Option String
  | some v => some v
  | none => old

/-- The amended claim's expected settings state after POST /api/settings,
key by key: the four plain string settings are updated when provided
non-empty; contactInfo and contactLinks are updated whenever provided;
every other key keeps its prior stored value. -/
def expectedSettingAfter (st : Store) (b : SettingsBody) (k : String) : Option String :=
  if k = "siteName" then updGuard (lookupS st.settings k) b.siteName
  else if k = "primaryColor" then updGuard (lookupS st.settings k) b.primaryColor
  else if k = "adminPassword" then updGuard (lookupS st.settings k) b.adminPassword
  else if k = "logoUrl" then updGuard (lookupS st.settings k) b.logoUrl
  else if k = "contactInfo" then updDefined (lookupS st.settings k) b.contactInfo
  else if k = "contactLinks" then updDefined (lookupS st.settings k) b.contactLinks
  else lookupS st.settings k

theorem lookupApplyGuard (s : List (String × String)) (key : String)
    (o : Option String) (k : String) :
    lookupS (applyGuard s key o) k
      = if k = key then updGuard (lookupS s k) o else lookupS s k := by
  cases o with
  | none =>
    rw [applyGuard, updGuard]
    split <;> rfl
  | some v =>
    by_cases hv : v = ""
    · rw [applyGuard, if_pos hv, updGuard, if_pos hv]
      split <;> rfl
    · by_cases hk : k = key
      · rw [applyGuard, if_neg hv, if_pos hk, updGuard, if_neg hv, hk, lookupUpsertSelf]
      · rw [applyGuard, if_neg hv, if_neg hk, lookupUpsertOther s key v k hk]

theorem lookupApplyDefined (s : List (String × String)) (key : String)
    (o : Option String) (k : String) :
    lookupS (applyDefined s key o) k
      = if k = key then updDefined (lookupS s k) o else lookupS s k := by
  cases o with
  | none =>
    rw [applyDefined, updDefined]
    split <;> rfl
  | some v =>
    by_cases hk : k = key
    · rw [applyDefined, if_pos hk, updDefined, hk, lookupUpsertSelf]
    · rw [applyDefined, if_neg hk, lookupUpsertOther s key v k hk]

/-- Counterexample to C7 as stated: contactInfo provided as the empty
string — a defined but empty value — is nevertheless upserted, replacing
the prior stored value, because the handler guards contactInfo with a
defined-check rather than the truthiness check used for the other keys. -/
theorem c7_counterexample :
    (postSettings
        { settings := [("contactInfo", "x")], posts := [], categories := [],
          faqs := [], training_process := [], nextCategoryId := 1 }
        { siteName := none, primaryColor := none, adminPassword := none,
          logoUrl := none, contactInfo := some "", contactLinks := none }).settings
      = [("contactInfo", "")] := by decide

/-- C7 as amended: after POST /api/settings the stored value of every key
is exactly the amended expected value — siteName, primaryColor,
adminPassword and logoUrl are upserted exactly when provided non-empty,
contactInfo and contactLinks whenever provided (even empty), and every
key not named in the request body keeps its prior stored value. -/
theorem c7_settings_partial_update (st : Store) (b : SettingsBody) (k : String) :
    lookupS (postSettings st b).settings k = expectedSettingAfter st b k := by
  show lookupS
      (applyDefined (applyDefined (applyGuard (applyGuard (applyGuard (applyGuard
        st.settings "siteName" b.siteName) "primaryColor" b.primaryColor)
        "adminPassword" b.adminPassword) "logoUrl" b.logoUrl)
        "contactInfo" b.contactInfo) "contactLinks" b.contactLinks) k
      = expectedSettingAfter st b k
  rw [lookupApplyDefined, lookupApplyDefined, lookupApplyGuard, lookupApplyGuard,
      lookupApplyGuard, lookupApplyGuard, expectedSettingAfter]
  by_cases h1 : k = "siteName"
  · simp [h1]
  · by_cases h2 : k = "primaryColor"
    · simp [h2]
    · by_cases h3 : k = "adminPassword"
      · simp [h3]
      · by_cases h4 : k = "logoUrl"
        · simp [h4]
        · by_cases h5 : k = "contactInfo"
          · simp [h5]
          · by_cases h6 : k = "contactLinks"
            · simp [h6]
            · simp [h1, h2, h3, h4, h5, h6]

/-- The request body of POST /api/posts. -/
structure PostBody where
  title : String
  content : String
  category : Option String
  icon : Option String
deriving Repr, DecidableEq

/-- POST /api/posts (part_002 lines 243-247) with the request's session
passed explicitly: the handler inserts the new row (the engine supplies
the clock value and the sequence id) and answers with the new id; no
statement of the handler reads the session. -/
def postPostsRoute (_sess : Session) (st : Store) (b : PostBody) (now : Nat) (newId : Nat) :
    Store × Nat :=
  ({ st with posts := st.posts ++
      [{ id := newId, title := b.title, content := b.content,
         category := b.category, icon := b.icon, updated_at := now }] },
   newId)

/-- POST /api/settings (part_002 lines 265-277) with the request's session
passed explicitly: the handler never reads it. -/
def postSettingsRoute (_sess : Session) (st : Store) (b : SettingsBody) : Store :=
  postSettings st b

/-- POST /api/categories/bulk (part_002 lines 294-300) with the request's
session passed explicitly: the handler never reads it. -/
def bulkCategoriesRoute (_sess : Session) (st : Store) (cats : List (String × Int)) :
    Store × Bool :=
  bulkCategoriesShim st cats

/-- C6: the mutating content and settings routes are reachable without
any auth guard — each cited handler, run under any two sessions (in
particular an anonymous and an authenticated one), produces the same
response and the same resulting store, because no statement of these
handlers consults the session's isAdmin flag. -/
theorem c6_mutating_routes_ignore_auth (s1 s2 : Session) (st : Store) (b : PostBody)
    (now newId : Nat) (sb : SettingsBody) (cats : List (String × Int)) :
    postPostsRoute s1 st b now newId = postPostsRoute s2 st b now newId
    ∧ postSettingsRoute s1 st sb = postSettingsRoute s2 st sb
    ∧ bulkCategoriesRoute s1 st cats = bulkCategoriesRoute s2 st cats :=
  ⟨rfl, rfl, rfl⟩

/-- DELETE FROM posts WHERE id = ?: the surviving rows. -/
def deletePosts : List Post → Nat → List Post
  | [], _ => []
  | p :: rest, i => if p.id = i then deletePosts rest i else p :: deletePosts rest i

/-- The affected-row count of DELETE FROM posts WHERE id = ?. -/
def deletedPostCount : List Post → Nat → Nat
  | [], _ => 0
  | p :: rest, i => if p.id = i then deletedPostCount rest i + 1 else deletedPostCount rest i

/-- DELETE FROM faqs WHERE id = ?: the surviving rows. -/
def deleteFaqs : List Faq → Nat → List Faq
  | [], _ => []
  | f :: rest, i => if f.id = i then deleteFaqs rest i else f :: deleteFaqs rest i

/-- The affected-row count of DELETE FROM faqs WHERE id = ?. -/
def deletedFaqCount : List Faq → Nat → Nat
  | [], _ => 0
  | f :: rest, i => if f.id = i then deletedFaqCount rest i + 1 else deletedFaqCount rest i

/-- POST /api/posts/delete in the shim variant (part_002 lines 255-258):
no id validation; the response is status 200 with success true and
changes = the affected-row count. -/
def postsDeleteShim (st : Store) (id : Nat) : Store × (Nat × Bool × Option Nat) :=
  ({ st with posts := deletePosts st.posts id },
   (200, true, some (deletedPostCount st.posts id)))

/-- POST /api/faqs/delete in the shim variant (part_002 lines 320-323). -/
def faqsDeleteShim (st : Store) (id : Nat) : Store × (Nat × Bool × Option Nat) :=
  ({ st with faqs := deleteFaqs st.faqs id },
   (200, true, some (deletedFaqCount st.faqs id)))

/-- POST /api/posts/delete in src/server.ts lines 185-200 (same guard in
part_000 lines 185-200 and 283-297): a falsy id — absent from the body,
or the number 0 — is answered 400 before the DELETE runs. -/
def postsDeleteServer (st : Store) (id : Option Nat) : Store × (Nat × Bool × Option Nat) :=
  match id with
  | none => (st, (400, false, none))
  | some i =>
    if i = 0 then (st, (400, false, none))
    else ({ st with posts := deletePosts st.posts i },
      (200, true, some (deletedPostCount st.posts i)))

/-- Counterexample to C8 as stated: in the src/server.ts variant (cited
by the claim), the id 0 matches no stored row — ids are assigned from 1 —
yet POST /api/posts/delete answers it with a 400 error response, not with
success and an affected-count of zero, because the handler rejects every
falsy id. -/
theorem c8_counterexample :
    (postsDeleteServer emptyStore (some 0)).2 = (400, false, none)
    ∧ (postsDeleteServer emptyStore none).2 = (400, false, none) := by
  refine ⟨by decide, by decide⟩

/-- C8 as amended: on any id matching no stored row, the shim variant's
POST /api/posts/delete and POST /api/faqs/delete answer success with an
affected-count of zero and leave the store unchanged; the src/server.ts
variant does the same for every such id except a falsy one (0, or an
absent id), which it answers with a 400 error. -/
theorem c8_delete_missing_id (st : Store) (id : Nat)
    (hp : ∀ p ∈ st.posts, p.id ≠ id) (hf : ∀ f ∈ st.faqs, f.id ≠ id) :
    postsDeleteShim st id = (st, (200, true, some 0))
    ∧ faqsDeleteShim st id = (st, (200, true, some 0))
    ∧ (id ≠ 0 → postsDeleteServer st (some id) = (st, (200, true, some 0))) := by
  have hdp : ∀ l : List Post, (∀ p ∈ l, p.id ≠ id) → deletePosts l id = l := by
    intro l
    induction l with
    | nil => intro _; rfl
    | cons p rest ih =>
      intro hl
      rw [deletePosts, if_neg (hl p (List.mem_cons_self _ _)),
        ih (fun q hq => hl q (List.mem_cons_of_mem _ hq))]
  have hcp : ∀ l : List Post, (∀ p ∈ l, p.id ≠ id) → deletedPostCount l id = 0 := by
    intro l
    induction l with
    | nil => intro _; rfl
    | cons p rest ih =>
      intro hl
      rw [deletedPostCount, if_neg (hl p (List.mem_cons_self _ _)),
        ih (fun q hq => hl q (List.mem_cons_of_mem _ hq))]
  have hdf : ∀ l : List Faq, (∀ f ∈ l, f.id ≠ id) → deleteFaqs l id = l := by
    intro l
    induction l with
    | nil => intro _; rfl
    | cons f rest ih =>
      intro hl
      rw [deleteFaqs, if_neg (hl f (List.mem_cons_self _ _)),
        ih (fun g hg => hl g (List.mem_cons_of_mem _ hg))]
  have hcf : ∀ l : List Faq, (∀ f ∈ l, f.id ≠ id) → deletedFaqCount l id = 0 := by
    intro l
    induction l with
    | nil => intro _; rfl
    | cons f rest ih =>
      intro hl
      rw [deletedFaqCount, if_neg (hl f (List.mem_cons_self _ _)),
        ih (fun g hg => hl g (List.mem_cons_of_mem _ hg))]
  refine ⟨?_, ?_, ?_⟩
  · rw [postsDeleteShim, hdp st.posts hp, hcp st.posts hp]
  · rw [faqsDeleteShim, hdf st.faqs hf, hcf st.faqs hf]
  · intro hz
    rw [postsDeleteServer, if_neg hz, hdp st.posts hp, hcp st.posts hp]

/-- Witness for the amended C8 on the empty store at id 5. -/
theorem c8_delete_missing_id_witness :
    postsDeleteShim emptyStore 5 = (emptyStore, (200, true, some 0))
    ∧ faqsDeleteShim emptyStore 5 = (emptyStore, (200, true, some 0))
    ∧ postsDeleteServer emptyStore (some 5) = (emptyStore, (200, true, some 0)) := by
  have h := c8_delete_missing_id emptyStore 5 (by simp [emptyStore]) (by simp [emptyStore])
  exact ⟨h.1, h.2.1, h.2.2 (by decide)⟩

/-- ORDER BY updated_at DESC on posts: the row relation used in the
embedding of GET /api/posts. -/
def postDesc (a b : Post) : Prop := b.updated_at ≤ a.updated_at

instance : DecidableRel postDesc := fun a b => Nat.decLe b.updated_at a.updated_at

instance : IsTotal Post postDesc := ⟨fun a b => Nat.le_total b.updated_at a.updated_at⟩

instance : IsTrans Post postDesc := ⟨fun _ _ _ hab hbc => Nat.le_trans hbc hab⟩

/-- ORDER BY updated_at DESC on faqs. -/
def faqDesc (a b : Faq) : Prop := b.updated_at ≤ a.updated_at

instance : DecidableRel faqDesc := fun a b => Nat.decLe b.updated_at a.updated_at

instance : IsTotal Faq faqDesc := ⟨fun a b => Nat.le_total b.updated_at a.updated_at⟩

instance : IsTrans Faq faqDesc := ⟨fun _ _ _ hab hbc => Nat.le_trans hbc hab⟩

/-- ORDER BY display_order ASC on categories. -/
def catAsc (a b : Category) : Prop := a.display_order ≤ b.display_order

instance : DecidableRel catAsc := fun a b => Int.decLe a.display_order b.display_order

instance : IsTotal Category catAsc := ⟨fun a b => Int.le_total a.display_order b.display_order⟩

instance : IsTrans Category catAsc := ⟨fun _ _ _ hab hbc => Int.le_trans hab hbc⟩

/-- ORDER BY step_order ASC on training_process. -/
def stepAsc (a b : TrainingStep) : Prop := a.step_order ≤ b.step_order

instance : DecidableRel stepAsc := fun a b => Int.decLe a.step_order b.step_order

instance : IsTotal TrainingStep stepAsc := ⟨fun a b => Int.le_total a.step_order b.step_order⟩

instance : IsTrans TrainingStep stepAsc := ⟨fun _ _ _ hab hbc => Int.le_trans hab hbc⟩

/-- GET /api/posts (part_002 lines 231-234): SELECT * FROM posts ORDER BY
updated_at DESC, embedded as a sort of the table's rows. -/
def getPosts (st : Store) : List Post := List.insertionSort postDesc st.posts

/-- GET /api/faqs (part_002 lines 302-305). -/
def getFaqs (st : Store) : List Faq := List.insertionSort faqDesc st.faqs

/-- GET /api/categories (part_002 lines 279-282): ORDER BY display_order
ASC. -/
def getCategories (st : Store) : List Category := List.insertionSort catAsc st.categories

/-- GET /api/training-process (part_002 lines 352-355): ORDER BY
step_order ASC. -/
def getTrainingProcess (st : Store) : List TrainingStep :=
  List.insertionSort stepAsc st.training_process

/-- C9: for every store state, the list routes return exactly the table's
rows (a permutation, losing and inventing nothing), ordered by update
time descending for posts and faqs and by the explicit order column
ascending for categories and training steps; on the empty store each
returns the empty sequence rather than an error. -/
theorem c9_list_ordering (st : Store) :
    List.Sorted postDesc (getPosts st) ∧ (getPosts st).Perm st.posts
    ∧ List.Sorted faqDesc (getFaqs st) ∧ (getFaqs st).Perm st.faqs
    ∧ List.Sorted catAsc (getCategories st) ∧ (getCategories st).Perm st.categories
    ∧ List.Sorted stepAsc (getTrainingProcess st)
    ∧ (getTrainingProcess st).Perm st.training_process
    ∧ getPosts emptyStore = [] ∧ getFaqs emptyStore = []
    ∧ getCategories emptyStore = [] ∧ getTrainingProcess emptyStore = [] :=
  ⟨List.sorted_insertionSort postDesc st.posts, List.perm_insertionSort postDesc st.posts,
   List.sorted_insertionSort faqDesc st.faqs, List.perm_insertionSort faqDesc st.faqs,
   List.sorted_insertionSort catAsc st.categories, List.perm_insertionSort catAsc st.categories,
   List.sorted_insertionSort stepAsc st.training_process,
   List.perm_insertionSort stepAsc st.training_process,
   rfl, rfl, rfl, rfl⟩

/-- The settings-seeding step of bootstrap in the shim variant (part_002
lines 185-194; the same else-branch appears in part_000 lines 98-108 and
src/api/index.ts lines 102-111): only when the settings table is empty
and the seed payload supplies settings are those seeded (each by an
upsert); in every other case the adminPassword row is upserted back to
the fixed default. -/
def seedSettings (settings : List (String × String))
    (seed : Option (List (String × String))) : List (String × String) :=
  match seed with
  | some entries =>
    if settings.length = 0 then
      entries.foldl (fun s kv => upsertSetting s kv.1 kv.2) settings
    else upsertSetting settings "adminPassword" "comento0804"
  | none => upsertSetting settings "adminPassword" "comento0804"

/-- C10: whenever the process starts against a store whose settings table
is already non-empty, or when no seed payload supplies settings, the
bootstrap upserts the adminPassword setting back to "comento0804",
overwriting any administrator-changed password from a previous run. -/
theorem c10_bootstrap_resets_admin_password (settings : List (String × String))
    (seed : Option (List (String × String)))
    (h : settings ≠ [] ∨ seed = none) :
    lookupS (seedSettings settings seed) "adminPassword" = some "comento0804" := by
  cases seed with
  | none => exact lookupUpsertSelf settings "adminPassword" "comento0804"
  | some entries =>
    have hne : settings ≠ [] := by
      rcases h with h | h
      · exact h
      · exact absurd h (by simp)
    rw [seedSettings, if_neg (by simpa [List.length_eq_zero] using hne)]
    exact lookupUpsertSelf settings "adminPassword" "comento0804"

/-- Witness for C10: a store whose adminPassword the administrator had
changed to "hunter2" is reset to the default on restart, seed payload or
not. -/
theorem c10_bootstrap_resets_admin_password_witness :
    lookupS (seedSettings [("adminPassword", "hunter2")]
        (some [("adminPassword", "seeded"), ("siteName", "G")])) "adminPassword"
      = some "comento0804"
    ∧ lookupS (seedSettings [("adminPassword", "hunter2")] none) "adminPassword"
      = some "comento0804" :=
  ⟨c10_bootstrap_resets_admin_password _ _ (Or.inl (by simp)),
   c10_bootstrap_resets_admin_password _ _ (Or.inr rfl)⟩

end Kdcguide
